import Mathlib

/-!
Verification of `computer_use_demo/tools/computer.py` (supersational/computer-use-macos).

The module is embedded shallowly:

* `scale_coordinates` (including its aspect-ratio target-selection loop) is
  translated into a pure function on exact rationals, with Python `round`
  modelled as round-half-to-even (`pyround`).  A traced variant
  (`scale_trace`) additionally records, in source order, which pieces of
  scaling arithmetic were executed, so that ordering statements about when
  the bounds error fires can be settled.
* `chunks`, `sanitize_key` and `shlex.quote` are translated directly.
* The async dispatcher `ComputerTool.__call__` is embedded as a pure function
  `toolCall` that returns the final outcome together with the ordered list of
  external commands it issued (`Event`s).  Process execution and the
  screenshot file plumbing are external collaborators and enter through an
  oracle environment `Env`.
-/

/-- The `Resolution` TypedDict of computer.py: a fixed (width, height) pair. -/
structure Resolution where
  width : ℤ
  height : ℤ
deriving DecidableEq, Repr

/-- The `ScalingSource` StrEnum of computer.py. -/
inductive ScalingSource where
  | COMPUTER
  | API
deriving DecidableEq, Repr

/-- Modelled from the spec: the exceptions surfaced by the module.
`toolError` is the single uniform `ToolError` type of the (absent) `base`
module; `keyError` and `nameError` model the Python built-in exceptions
`KeyError` and `NameError`, which the dispatcher can also raise. -/
inductive PyError where
  | toolError (msg : String)
  | keyError (key : String)
  | nameError (missing : String)
deriving DecidableEq, Repr

/-- Python built-in `round` on an exact rational: round half to even. -/
def pyround (q : ℚ) : ℤ :=
  if q - ⌊q⌋ < 1/2 then ⌊q⌋
  else if 1/2 < q - ⌊q⌋ then ⌊q⌋ + 1
  else if ⌊q⌋ % 2 = 0 then ⌊q⌋ else ⌊q⌋ + 1

/-- The `MAX_SCALING_TARGETS` dict of computer.py, in insertion
(= iteration) order. -/
def MAX_SCALING_TARGETS : List (String × Resolution) :=
  [("XGA", ⟨1024, 768⟩), ("WXGA", ⟨1280, 800⟩), ("FWXGA", ⟨1366, 768⟩)]

/-- The target-selection loop of `scale_coordinates`: iterate over
`MAX_SCALING_TARGETS.items()` keeping the first dimension realising the
minimum aspect-ratio difference to `r`.  `none` as the running minimum plays
the role of the initial `float(\x27inf\x27)`, and `none` as the running best
plays the initial `target_dimension = None`. -/
def aspect_ratio_target (r : ℚ) :
    List (String × Resolution) → Option Resolution → Option ℚ → Option Resolution
  | [], best, _ => best
  | (_, dimension) :: rest, best, min_aspect_ratio_diff =>
      let aspect_ratio_diff := |(dimension.width : ℚ) / (dimension.height : ℚ) - r|
      match min_aspect_ratio_diff with
      | none => aspect_ratio_target r rest (some dimension) (some aspect_ratio_diff)
      | some m =>
          if aspect_ratio_diff < m then
            aspect_ratio_target r rest (some dimension) (some aspect_ratio_diff)
          else
            aspect_ratio_target r rest best min_aspect_ratio_diff

/-- The `target_dimension` computed by `scale_coordinates` from the real
display size, where `r = self.width / self.height`. -/
def target_dimension (W H : ℤ) : Option Resolution :=
  aspect_ratio_target ((W : ℚ) / (H : ℚ)) MAX_SCALING_TARGETS none none

/-- Aspect-ratio distance of a candidate resolution from the real display
ratio, as computed inside the selection loop. -/
def aspectRatioDiff (d : Resolution) (W H : ℤ) : ℚ :=
  |(d.width : ℚ) / (d.height : ℚ) - (W : ℚ) / (H : ℚ)|

/-- The pieces of scaling arithmetic performed by `scale_coordinates`, in
source order: the aspect-ratio computation feeding the selection loop
(line 246), the two scaling factors (lines 260-261), the division of the
coordinates on the API branch (line 266) and the multiplication on the
COMPUTER branch (line 268). -/
inductive ScaleStep where
  | aspectRatio
  | scalingFactors
  | divideCoordinates
  | multiplyCoordinates
deriving DecidableEq, Repr

/-- `ComputerTool.scale_coordinates`, instrumented with the list of scaling
arithmetic steps it performs, in the order the source performs them.
`W`, `H` are `self.width`, `self.height` (the real display) and
`scaling_enabled` is `self._scaling_enabled` (the class sets it to `True`). -/
def scale_trace (W H : ℤ) (scaling_enabled : Bool) (source : ScalingSource)
    (x y : ℤ) : List ScaleStep × Except PyError (ℤ × ℤ) :=
  if scaling_enabled = false then ([], .ok (x, y))
  else
    match target_dimension W H with
    | none => ([.aspectRatio], .ok (x, y))
    | some dim =>
        let x_scaling_factor : ℚ := (dim.width : ℚ) / (W : ℚ)
        let y_scaling_factor : ℚ := (dim.height : ℚ) / (H : ℚ)
        match source with
        | .API =>
            if x > W ∨ y > H then
              ([.aspectRatio, .scalingFactors],
               .error (.toolError s!"Coordinates {x}, {y} are out of bounds"))
            else
              ([.aspectRatio, .scalingFactors, .divideCoordinates],
               .ok (pyround ((x : ℚ) / x_scaling_factor),
                    pyround ((y : ℚ) / y_scaling_factor)))
        | .COMPUTER =>
            ([.aspectRatio, .scalingFactors, .multiplyCoordinates],
             .ok (pyround ((x : ℚ) * x_scaling_factor),
                  pyround ((y : ℚ) * y_scaling_factor)))

/-- `ComputerTool.scale_coordinates` proper: the value computed (or the
exception raised), forgetting the instrumentation. -/
def scale_coordinates (W H : ℤ) (scaling_enabled : Bool) (source : ScalingSource)
    (x y : ℤ) : Except PyError (ℤ × ℤ) :=
  (scale_trace W H scaling_enabled source x y).2

/-- The `ComputerTool.options` property: the (API-space) display size the
tool declares to the caller, `scale_coordinates(ScalingSource.COMPUTER,
self.width, self.height)`. -/
def options (W H : ℤ) : Except PyError (ℤ × ℤ) :=
  scale_coordinates W H true .COMPUTER W H

/-- Python `str.lower`, character by character (the key names involved are
ASCII, where `Char.toLower` agrees with Python). -/
def str_lower (s : String) : String :=
  String.mk (s.data.map Char.toLower)

/-- `sanitize_key` of computer.py: `text.lower() == "return"` maps to
`enter`, anything else is returned unchanged. -/
def sanitize_key (text : String) : String :=
  if str_lower text = "return" then "enter" else text

/-- The character class of `shlex._find_unsafe`: characters NOT matched by
the unsafe regex, i.e. ASCII word characters and `@ % + = : , . / -`. -/
def shlexSafeChar (c : Char) : Bool :=
  c.isAlphanum || c = '_' || c = '@' || c = '%' || c = '+' || c = '=' ||
    c = ':' || c = ',' || c = '.' || c = '/' || c = '-'

/-- Python `shlex.quote`, as used for the `cliclick t:` argument. -/
def shlexQuote (s : String) : String :=
  if s = "" then "\x27\x27"
  else if s.data.all shlexSafeChar then s
  else "\x27" ++ s.replace "\x27" "\x27\x22\x27\x22\x27" ++ "\x27"

/-- List-level core of `chunks`: the slicing comprehension
`[s[i : i + chunk_size] for i in range(0, len(s), chunk_size)]`
(the `range` step is the positive `chunk_size`, so successive slices are
`take chunk_size` of successive `drop chunk_size`; an empty list gives an
empty range, hence no chunks). -/
def chunksList (l : List Char) (chunk_size : ℕ) : List (List Char) :=
  if l = [] ∨ chunk_size = 0 then []
  else l.take chunk_size :: chunksList (l.drop chunk_size) chunk_size
termination_by l.length
decreasing_by
  rename_i h
  push_neg at h
  simp only [List.length_drop]
  have hl : 0 < l.length := List.length_pos.mpr h.1
  omega

/-- `chunks` of computer.py. -/
def chunks (s : String) (chunk_size : ℕ) : List String :=
  (chunksList s.data chunk_size).map String.mk

/-- `TYPING_GROUP_SIZE` of computer.py. -/
def TYPING_GROUP_SIZE : ℕ := 50

/-- Modelled from the spec: the `ToolResult` of the (absent) `base` module,
as the spec describes it — optional output text, optional error text,
optional image payload. -/
structure ToolResult where
  output : Option String
  error : Option String
  base64_image : Option String
deriving DecidableEq, Repr

/-- An external command issued by the dispatcher: a shell command (with the
flag saying whether `shell` will follow it with a screenshot), or one run of
the screenshot routine (capture + optional resize + file read). -/
inductive Event where
  | shell (command : String) (take_screenshot : Bool)
  | screenshot
deriving DecidableEq, Repr

/-- Modelled from the spec: the external collaborators.  `width`, `height`
are the OS-reported real display size fixed at construction; `shellOut` is
the process-execution primitive of the (absent) `run` module, giving
(stdout, stderr) for a command; `screenshotB64` is the base64 payload the
screenshot routine produces. -/
structure Env where
  width : ℤ
  height : ℤ
  shellOut : String → String × String
  screenshotB64 : String

/-- `ComputerTool.shell`: run the command, and when `take_screenshot` is set
follow it (after the settle delay) with the screenshot routine whose image is
attached to the result. -/
def shell (env : Env) (command : String) (take_screenshot : Bool) :
    ToolResult × List Event :=
  let (stdout, stderr) := env.shellOut command
  if take_screenshot then
    ({ output := some stdout, error := some stderr,
       base64_image := some env.screenshotB64 },
     [Event.shell command true, Event.screenshot])
  else
    ({ output := some stdout, error := some stderr, base64_image := none },
     [Event.shell command false])

/-- `ComputerTool.screenshot`: the capture/resize/read routine.  Its
process and file-system effects are abstracted into the single
`Event.screenshot` and the oracle-provided base64 payload of `Env`. -/
def screenshotAction (env : Env) : ToolResult × List Event :=
  ({ output := none, error := none, base64_image := some env.screenshotB64 },
   [Event.screenshot])

/-- `ComputerTool.__call__`, the action dispatcher, returning the outcome
(result or raised exception) together with the ordered external commands.
`coordinate` is modelled as an optional Python list of ints (the JSON array
the agent loop passes), so the `isinstance(coordinate, list)` test holds and
the length-2 test is the pattern match.  The `isinstance` tests on ints and
strings always hold in the embedding. -/
def toolCall (env : Env) (action : String) (text : Option String)
    (coordinate : Option (List ℤ)) : Except PyError ToolResult × List Event :=
  if action = "mouse_move" ∨ action = "left_click_drag" then
    match coordinate with
    | none => (.error (.toolError ("coordinate is required for " ++ action)), [])
    | some coord =>
        if text.isSome then
          (.error (.toolError ("text is not accepted for " ++ action)), [])
        else
          match coord with
          | [cx, cy] =>
              if ¬ (0 ≤ cx ∧ 0 ≤ cy) then
                (.error (.toolError
                  (toString coord ++ " must be a tuple of non-negative ints")), [])
              else
                match scale_coordinates env.width env.height true .API cx cy with
                | .error e => (.error e, [])
                | .ok (x, y) =>
                    if action = "mouse_move" then
                      let (r, evs) := shell env s!"cliclick m:{x},{y}" true
                      (.ok r, evs)
                    else
                      let (r, evs) := shell env s!"cliclick dd:1 m:{x},{y} du:1" true
                      (.ok r, evs)
          | _ =>
              (.error (.toolError
                (toString coord ++ " must be a tuple of length 2")), [])
  else if action = "key" ∨ action = "type" then
    match text with
    | none => (.error (.toolError ("text is required for " ++ action)), [])
    | some t =>
        if coordinate.isSome then
          (.error (.toolError ("coordinate is not accepted for " ++ action)), [])
        else if action = "key" then
          let (r, evs) := shell env ("cliclick kp:" ++ sanitize_key t) true
          (.ok r, evs)
        else
          let results := (chunks t TYPING_GROUP_SIZE).map
            (fun chunk => shell env ("cliclick t:" ++ shlexQuote chunk) false)
          let (shot, shotEvs) := screenshotAction env
          (.ok { output := some (String.join (results.map
                   (fun res => res.1.output.getD ""))),
                 error := some (String.join (results.map
                   (fun res => res.1.error.getD ""))),
                 base64_image := shot.base64_image },
           (results.map (fun res => res.2)).flatten ++ shotEvs)
  else if action = "left_click" ∨ action = "right_click" ∨ action = "double_click" ∨
      action = "middle_click" ∨ action = "screenshot" ∨ action = "cursor_position" then
    if text.isSome then
      (.error (.toolError ("text is not accepted for " ++ action)), [])
    else if coordinate.isSome then
      (.error (.toolError ("coordinate is not accepted for " ++ action)), [])
    else if action = "screenshot" then
      let (r, evs) := screenshotAction env
      (.ok r, evs)
    else if action = "cursor_position" then
      let (_r, evs) := shell env "cliclick p" false
      -- the module never imports `re`, so `re.findall` on the next source
      -- line raises NameError after the shell command has already run
      (.error (.nameError "re"), evs)
    else
      match (if action = "right_click" then some "rc"
             else if action = "left_click" then some "c"
             else if action = "double_click" then some "dc"
             else none) with
      | some click_arg =>
          let (r, evs) := shell env ("cliclick " ++ click_arg ++ ":.") true
          (.ok r, evs)
      | none =>
          -- the click_arg dict has no entry for this action: KeyError
          (.error (.keyError action), [])
  else
    (.error (.toolError ("Invalid action: " ++ action)), [])

/-- A concrete environment used by witnesses: a 1920 by 1200 display with a
trivial process oracle. -/
def envW : Env :=
  { width := 1920, height := 1200,
    shellOut := fun _ => ("", ""), screenshotB64 := "img" }

/-! ## Properties of `pyround` -/

/-- Round-half-to-even of an integer is that integer. -/
theorem pyround_intCast (n : ℤ) : pyround (n : ℚ) = n := by
  simp [pyround, Int.floor_intCast]

/-- Any value of `pyround` is within 1/2 of its argument. -/
theorem abs_pyround_sub (q : ℚ) : |(pyround q : ℚ) - q| ≤ 1/2 := by
  have h0 : (⌊q⌋ : ℚ) ≤ q := Int.floor_le q
  have h1 : q < ⌊q⌋ + 1 := Int.lt_floor_add_one q
  unfold pyround
  split_ifs with hlt hgt heven <;>
    · push_cast
      rw [abs_le]
      constructor <;> linarith

/-- Dividing by a scale factor `0 < f ≤ 1`, rounding, multiplying back by
`f` and rounding again lands within 1 of the starting value. -/
theorem pyround_div_mul_roundtrip (q f : ℚ) (hf0 : 0 < f) (hf1 : f ≤ 1) :
    |(pyround ((pyround (q / f) : ℚ) * f) : ℚ) - q| ≤ 1 := by
  have h1 : |(pyround (q / f) : ℚ) - q / f| ≤ 1/2 := abs_pyround_sub _
  have h2 : |(pyround ((pyround (q / f) : ℚ) * f) : ℚ) -
      (pyround (q / f) : ℚ) * f| ≤ 1/2 := abs_pyround_sub _
  have hq : q / f * f = q := div_mul_cancel₀ q (ne_of_gt hf0)
  have key : |(pyround (q / f) : ℚ) * f - q| ≤ 1/2 * f := by
    have : (pyround (q / f) : ℚ) * f - q = ((pyround (q / f) : ℚ) - q / f) * f := by
      rw [sub_mul, hq]
    rw [this, abs_mul, abs_of_pos hf0]
    exact mul_le_mul_of_nonneg_right h1 (le_of_lt hf0)
  calc |(pyround ((pyround (q / f) : ℚ) * f) : ℚ) - q|
      ≤ |(pyround ((pyround (q / f) : ℚ) * f) : ℚ) - (pyround (q / f) : ℚ) * f| +
        |(pyround (q / f) : ℚ) * f - q| := abs_sub_le _ _ _
    _ ≤ 1/2 + 1/2 * f := add_le_add h2 key
    _ ≤ 1 := by linarith

/-! ## Properties of the target-selection loop -/

/-- Whatever the loop returns is either the running best or drawn from the
remaining candidates. -/
theorem aspect_ratio_target_mem (r : ℚ) :
    ∀ (l : List (String × Resolution)) (best : Option Resolution) (m : Option ℚ)
      (d : Resolution), aspect_ratio_target r l best m = some d →
      best = some d ∨ ∃ p ∈ l, p.2 = d := by
  intro l
  induction l with
  | nil => intro best m d h; exact Or.inl h
  | cons p rest ih =>
      intro best m d h
      obtain ⟨nm, dim⟩ := p
      rcases m with _ | m <;> simp only [aspect_ratio_target] at h
      · rcases ih _ _ _ h with h' | ⟨p', hp', he⟩
        · exact Or.inr ⟨(nm, dim), List.mem_cons_self _ _, by
            simpa using Option.some.inj h'⟩
        · exact Or.inr ⟨p', List.mem_cons_of_mem _ hp', he⟩
      · split_ifs at h
        · rcases ih _ _ _ h with h' | ⟨p', hp', he⟩
          · exact Or.inr ⟨(nm, dim), List.mem_cons_self _ _, by
              simpa using Option.some.inj h'⟩
          · exact Or.inr ⟨p', List.mem_cons_of_mem _ hp', he⟩
        · rcases ih _ _ _ h with h' | ⟨p', hp', he⟩
          · exact Or.inl h'
          · exact Or.inr ⟨p', List.mem_cons_of_mem _ hp', he⟩

/-- The selection loop over the (non-empty) `MAX_SCALING_TARGETS` always
produces a target, so the `target_dimension is None` early return of
`scale_coordinates` is dead code. -/
theorem target_dimension_isSome (W H : ℤ) :
    ∃ dim, target_dimension W H = some dim := by
  unfold target_dimension MAX_SCALING_TARGETS
  simp only [aspect_ratio_target]
  split_ifs <;> exact ⟨_, rfl⟩

/-- A selected target is one of the three standard resolutions. -/
theorem target_dimension_cases (W H : ℤ) (dim : Resolution)
    (h : target_dimension W H = some dim) :
    dim = ⟨1024, 768⟩ ∨ dim = ⟨1280, 800⟩ ∨ dim = ⟨1366, 768⟩ := by
  rcases aspect_ratio_target_mem _ _ _ _ _ h with h' | ⟨p, hp, he⟩
  · cases h'
  · simp only [MAX_SCALING_TARGETS, List.mem_cons, List.not_mem_nil, or_false] at hp
    rcases hp with rfl | rfl | rfl
    · exact Or.inl (by simpa using he.symm)
    · exact Or.inr (Or.inl (by simpa using he.symm))
    · exact Or.inr (Or.inr (by simpa using he.symm))

/-- The aspect-ratio winner for a 1920 by 1200 display is the 16:10 target
1280 by 800 (WXGA). -/
theorem target_dimension_1920_1200 : target_dimension 1920 1200 = some ⟨1280, 800⟩ := by
  unfold target_dimension MAX_SCALING_TARGETS
  simp only [aspect_ratio_target]
  norm_num

/-- C3: in the API-to-real direction, `scale_coordinates` raises the bounds
`ToolError` exactly when `x` exceeds the real display width or `y` exceeds
the real display height; otherwise it returns the input divided by the
per-axis scaling factors (chosen target dimension over real dimension) and
rounded. -/
theorem scale_api_bounds_and_formula (W H x y : ℤ) :
    ∃ dim, target_dimension W H = some dim ∧
      scale_coordinates W H true .API x y =
        (if x > W ∨ y > H then
          Except.error (.toolError s!"Coordinates {x}, {y} are out of bounds")
        else
          Except.ok (pyround ((x : ℚ) / ((dim.width : ℚ) / (W : ℚ))),
                     pyround ((y : ℚ) / ((dim.height : ℚ) / (H : ℚ))))) ∧
      ((∃ e, scale_coordinates W H true .API x y = .error e) ↔ x > W ∨ y > H) := by
  obtain ⟨dim, hdim⟩ := target_dimension_isSome W H
  refine ⟨dim, hdim, ?_, ?_⟩
  · unfold scale_coordinates scale_trace
    rw [hdim]
    by_cases h : x > W ∨ y > H
    · simp [h]
    · simp [h]
  · unfold scale_coordinates scale_trace
    rw [hdim]
    by_cases h : x > W ∨ y > H
    · simp [h]
    · simp [h]

/-- C1: scaling a point within the real display bounds from API space to
real space and back lands within 1 of the original in each component
(given the standing assumption that the real display is at least as large
as the chosen standard target, so both scale factors are at most 1). -/
theorem scale_api_computer_roundtrip_within_one (W H x y : ℤ) (dim : Resolution)
    (hdim : target_dimension W H = some dim)
    (hW : 0 < W) (hH : 0 < H)
    (hwle : dim.width ≤ W) (hhle : dim.height ≤ H)
    (hxW : x ≤ W) (hyH : y ≤ H) :
    ∃ rx ry ax ay,
      scale_coordinates W H true .API x y = .ok (rx, ry) ∧
      scale_coordinates W H true .COMPUTER rx ry = .ok (ax, ay) ∧
      |ax - x| ≤ 1 ∧ |ay - y| ≤ 1 := by
  have hdw : (0:ℤ) < dim.width := by
    rcases target_dimension_cases W H dim hdim with rfl | rfl | rfl <;> norm_num
  have hdh : (0:ℤ) < dim.height := by
    rcases target_dimension_cases W H dim hdim with rfl | rfl | rfl <;> norm_num
  have hxf0 : 0 < (dim.width : ℚ) / (W : ℚ) :=
    div_pos (by exact_mod_cast hdw) (by exact_mod_cast hW)
  have hxf1 : (dim.width : ℚ) / (W : ℚ) ≤ 1 := by
    rw [div_le_one (by exact_mod_cast hW)]
    exact_mod_cast hwle
  have hyf0 : 0 < (dim.height : ℚ) / (H : ℚ) :=
    div_pos (by exact_mod_cast hdh) (by exact_mod_cast hH)
  have hyf1 : (dim.height : ℚ) / (H : ℚ) ≤ 1 := by
    rw [div_le_one (by exact_mod_cast hH)]
    exact_mod_cast hhle
  have hcond : ¬ (x > W ∨ y > H) := by
    push_neg
    exact ⟨hxW, hyH⟩
  refine ⟨pyround ((x : ℚ) / ((dim.width : ℚ) / (W : ℚ))),
          pyround ((y : ℚ) / ((dim.height : ℚ) / (H : ℚ))),
          pyround ((pyround ((x : ℚ) / ((dim.width : ℚ) / (W : ℚ))) : ℚ) *
            ((dim.width : ℚ) / (W : ℚ))),
          pyround ((pyround ((y : ℚ) / ((dim.height : ℚ) / (H : ℚ))) : ℚ) *
            ((dim.height : ℚ) / (H : ℚ))), ?_, ?_, ?_, ?_⟩
  · unfold scale_coordinates scale_trace
    rw [hdim]
    simp [hcond]
  · unfold scale_coordinates scale_trace
    rw [hdim]
    simp
  · have h1 := pyround_div_mul_roundtrip (x : ℚ) _ hxf0 hxf1
    have h2 : |((pyround ((pyround ((x : ℚ) / ((dim.width : ℚ) / (W : ℚ))) : ℚ) *
        ((dim.width : ℚ) / (W : ℚ))) - x : ℤ) : ℚ)| ≤ 1 := by
      push_cast
      exact h1
    exact_mod_cast h2
  · have h1 := pyround_div_mul_roundtrip (y : ℚ) _ hyf0 hyf1
    have h2 : |((pyround ((pyround ((y : ℚ) / ((dim.height : ℚ) / (H : ℚ))) : ℚ) *
        ((dim.height : ℚ) / (H : ℚ))) - y : ℤ) : ℚ)| ≤ 1 := by
      push_cast
      exact h1
    exact_mod_cast h2

/-- Witness for C1 at a 1920 by 1200 display and the in-bounds point
(1000, 700). -/
theorem scale_api_computer_roundtrip_within_one_witness :
    target_dimension 1920 1200 = some ⟨1280, 800⟩ ∧
    (0:ℤ) < 1920 ∧ (0:ℤ) < 1200 ∧
    (⟨1280, 800⟩ : Resolution).width ≤ 1920 ∧
    (⟨1280, 800⟩ : Resolution).height ≤ 1200 ∧
    (1000:ℤ) ≤ 1920 ∧ (700:ℤ) ≤ 1200 ∧
    (∃ rx ry ax ay,
      scale_coordinates 1920 1200 true .API 1000 700 = .ok (rx, ry) ∧
      scale_coordinates 1920 1200 true .COMPUTER rx ry = .ok (ax, ay) ∧
      |ax - 1000| ≤ 1 ∧ |ay - 700| ≤ 1) :=
  ⟨target_dimension_1920_1200, by norm_num, by norm_num, by norm_num, by norm_num,
   by norm_num, by norm_num,
   scale_api_computer_roundtrip_within_one 1920 1200 1000 700 ⟨1280, 800⟩
     target_dimension_1920_1200 (by norm_num) (by norm_num) (by norm_num)
     (by norm_num) (by norm_num) (by norm_num)⟩

/-- C2 counterexample: on a 1920 by 1200 display the declared (API-space)
width is 1280, yet the API-to-real call with `x = 1500 > 1280` does NOT fail
with a bounds error — it scales and succeeds.  The code compares against the
real display size, not the declared API size. -/
theorem bounds_check_not_api_width_counterexample :
    options 1920 1200 = .ok (1280, 800) ∧
    (1500 : ℤ) > 1280 ∧
    scale_coordinates 1920 1200 true .API 1500 100 = .ok (2250, 150) := by
  refine ⟨?_, by norm_num, ?_⟩
  · unfold options scale_coordinates scale_trace
    rw [target_dimension_1920_1200]
    norm_num [pyround]
  · unfold scale_coordinates scale_trace
    rw [target_dimension_1920_1200]
    norm_num [pyround]

/-- C2 amended: the bounds error fires exactly when the input exceeds the
REAL display dimensions, and it fires after the scaling factors have been
computed but before any division of the coordinates (the trace on the error
path records the factor computation and no coordinate division). -/
theorem bounds_error_after_factors_before_division (W H x y : ℤ)
    (h : x > W ∨ y > H) :
    scale_trace W H true .API x y =
      ([.aspectRatio, .scalingFactors],
       .error (.toolError s!"Coordinates {x}, {y} are out of bounds")) := by
  obtain ⟨dim, hdim⟩ := target_dimension_isSome W H
  unfold scale_trace
  rw [hdim]
  simp [h]

/-- Witness for the amended C2 at a 1920 by 1200 display and x = 2000. -/
theorem bounds_error_after_factors_before_division_witness :
    ((2000:ℤ) > 1920 ∨ (100:ℤ) > 1200) ∧
    scale_trace 1920 1200 true .API 2000 100 =
      ([.aspectRatio, .scalingFactors],
       .error (.toolError "Coordinates 2000, 100 are out of bounds")) := by
  refine ⟨Or.inl (by norm_num), ?_⟩
  rw [bounds_error_after_factors_before_division 1920 1200 2000 100
    (Or.inl (by norm_num))]
  rfl

/-- C4: the selected target is a member of the fixed enumeration realising
the minimum aspect-ratio difference, every candidate listed before it is
strictly worse (so ties go to the first), and for a 1920 by 1200 display the
winner is 1280 by 800. -/
theorem target_selection_first_min_aspect_diff (W H : ℤ) :
    ∃ dim l1 l2,
      target_dimension W H = some dim ∧
      MAX_SCALING_TARGETS.map Prod.snd = l1 ++ dim :: l2 ∧
      (∀ d ∈ MAX_SCALING_TARGETS.map Prod.snd,
        aspectRatioDiff dim W H ≤ aspectRatioDiff d W H) ∧
      (∀ d ∈ l1, aspectRatioDiff dim W H < aspectRatioDiff d W H) ∧
      target_dimension 1920 1200 = some ⟨1280, 800⟩ := by
  have e : target_dimension W H =
      (if aspectRatioDiff ⟨1280, 800⟩ W H < aspectRatioDiff ⟨1024, 768⟩ W H then
        (if aspectRatioDiff ⟨1366, 768⟩ W H < aspectRatioDiff ⟨1280, 800⟩ W H then
          some ⟨1366, 768⟩ else some ⟨1280, 800⟩)
      else
        (if aspectRatioDiff ⟨1366, 768⟩ W H < aspectRatioDiff ⟨1024, 768⟩ W H then
          some ⟨1366, 768⟩ else some ⟨1024, 768⟩)) := by
    unfold target_dimension MAX_SCALING_TARGETS aspectRatioDiff
    simp only [aspect_ratio_target]
  rw [e]
  split_ifs with h1 h2 h3
  · refine ⟨⟨1366, 768⟩, [⟨1024, 768⟩, ⟨1280, 800⟩], [], rfl, by
      simp [MAX_SCALING_TARGETS], ?_, ?_, target_dimension_1920_1200⟩
    · intro d hd
      simp only [MAX_SCALING_TARGETS, List.map_cons, List.map_nil, List.mem_cons,
        List.not_mem_nil, or_false] at hd
      rcases hd with rfl | rfl | rfl <;> linarith
    · intro d hd
      simp only [List.mem_cons, List.not_mem_nil, or_false] at hd
      rcases hd with rfl | rfl <;> linarith
  · refine ⟨⟨1280, 800⟩, [⟨1024, 768⟩], [⟨1366, 768⟩], rfl, by
      simp [MAX_SCALING_TARGETS], ?_, ?_, target_dimension_1920_1200⟩
    · intro d hd
      simp only [MAX_SCALING_TARGETS, List.map_cons, List.map_nil, List.mem_cons,
        List.not_mem_nil, or_false] at hd
      rcases hd with rfl | rfl | rfl <;> linarith
    · intro d hd
      simp only [List.mem_cons, List.not_mem_nil, or_false] at hd
      rcases hd with rfl
      linarith
  · refine ⟨⟨1366, 768⟩, [⟨1024, 768⟩, ⟨1280, 800⟩], [], rfl, by
      simp [MAX_SCALING_TARGETS], ?_, ?_, target_dimension_1920_1200⟩
    · intro d hd
      simp only [MAX_SCALING_TARGETS, List.map_cons, List.map_nil, List.mem_cons,
        List.not_mem_nil, or_false] at hd
      rcases hd with rfl | rfl | rfl <;> linarith
    · intro d hd
      simp only [List.mem_cons, List.not_mem_nil, or_false] at hd
      rcases hd with rfl | rfl <;> linarith
  · refine ⟨⟨1024, 768⟩, [], [⟨1280, 800⟩, ⟨1366, 768⟩], rfl, by
      simp [MAX_SCALING_TARGETS], ?_, ?_, target_dimension_1920_1200⟩
    · intro d hd
      simp only [MAX_SCALING_TARGETS, List.map_cons, List.map_nil, List.mem_cons,
        List.not_mem_nil, or_false] at hd
      rcases hd with rfl | rfl | rfl <;> linarith
    · intro d hd
      simp only [List.not_mem_nil] at hd

/-- Witness for C4: extracting the concrete 1920 by 1200 selection. -/
theorem target_selection_first_min_aspect_diff_witness :
    target_dimension 1920 1200 = some ⟨1280, 800⟩ := by
  obtain ⟨dim, l1, l2, _, _, _, _, h5⟩ := target_selection_first_min_aspect_diff 1920 1200
  exact h5

/-! ## Properties of `chunks` -/

theorem chunksList_nil (n : ℕ) : chunksList [] n = [] := by
  rw [chunksList]
  simp

theorem chunksList_cons (l : List Char) (n : ℕ) (h1 : l ≠ []) (h2 : n ≠ 0) :
    chunksList l n = l.take n :: chunksList (l.drop n) n := by
  rw [chunksList]
  simp [h1, h2]

/-- Concatenating the chunks gives back the original list. -/
theorem chunksList_flatten (l : List Char) (n : ℕ) (hn : n ≠ 0) :
    (chunksList l n).flatten = l := by
  by_cases hl : l = []
  · subst hl
    simp [chunksList_nil]
  · rw [chunksList_cons l n hl hn]
    simp only [List.flatten_cons]
    rw [chunksList_flatten (l.drop n) n hn]
    exact List.take_append_drop n l
termination_by l.length
decreasing_by
  simp only [List.length_drop]
  have hp : 0 < l.length := List.length_pos.mpr hl
  omega

/-- Every chunk is non-empty and no longer than the chunk size. -/
theorem chunksList_mem (l : List Char) (n : ℕ) (hn : n ≠ 0) :
    ∀ c ∈ chunksList l n, c ≠ [] ∧ c.length ≤ n := by
  by_cases hl : l = []
  · subst hl
    simp [chunksList_nil]
  · rw [chunksList_cons l n hl hn]
    intro c hc
    rcases List.mem_cons.mp hc with rfl | hc'
    · refine ⟨?_, ?_⟩
      · simp [List.take_eq_nil_iff, hl, hn]
      · rw [List.length_take]
        omega
    · exact chunksList_mem (l.drop n) n hn c hc'
termination_by l.length
decreasing_by
  simp only [List.length_drop]
  have hp : 0 < l.length := List.length_pos.mpr hl
  omega

/-- Every chunk except possibly the last has length exactly the chunk
size. -/
theorem chunksList_dropLast_length (l : List Char) (n : ℕ) (hn : n ≠ 0) :
    ∀ c ∈ (chunksList l n).dropLast, c.length = n := by
  by_cases hl : l = []
  · subst hl
    simp [chunksList_nil]
  · rw [chunksList_cons l n hl hn]
    intro c hc
    by_cases hrest : chunksList (l.drop n) n = []
    · rw [hrest] at hc
      simp at hc
    · rw [List.dropLast_cons_of_ne_nil hrest] at hc
      rcases List.mem_cons.mp hc with rfl | hc'
      · have hdrop : l.drop n ≠ [] := by
          intro e
          rw [e, chunksList_nil] at hrest
          exact hrest rfl
        have hlt : n < l.length := by
          by_contra hcon
          push_neg at hcon
          exact hdrop (List.drop_eq_nil_of_le hcon)
        rw [List.length_take]
        omega
      · exact chunksList_dropLast_length (l.drop n) n hn c hc'
termination_by l.length
decreasing_by
  simp only [List.length_drop]
  have hp : 0 < l.length := List.length_pos.mpr hl
  omega

/-- `String.join` of strings built from character lists is the string of the
flattened lists. -/
theorem string_join_map_mk (L : List (List Char)) :
    String.join (L.map String.mk) = String.mk L.flatten := by
  suffices h : ∀ (M : List (List Char)) (acc : String),
      (M.map String.mk).foldl (fun r s => r ++ s) acc =
        String.mk (acc.data ++ M.flatten) by
    have h0 := h L ""
    simpa [String.join] using h0
  intro M
  induction M with
  | nil =>
      intro acc
      simp only [List.map_nil, List.foldl_nil, List.flatten_nil, List.append_nil]
  | cons a t ih =>
      intro acc
      simp only [List.map_cons, List.foldl_cons, List.flatten_cons]
      rw [ih]
      show String.mk ((acc.data ++ a) ++ t.flatten) =
        String.mk (acc.data ++ (a ++ t.flatten))
      rw [List.append_assoc]

/-- C10: for positive chunk size, `chunks` partitions the string — the
chunks concatenate back to the input in order, every chunk is non-empty of
length at most the chunk size, every chunk except possibly the last has
length exactly the chunk size, and an empty string yields no chunks. -/
theorem chunks_partition_properties (s : String) (n : ℕ) (hn : 0 < n) :
    String.join (chunks s n) = s ∧
    (∀ c ∈ chunks s n, c ≠ "" ∧ c.length ≤ n) ∧
    (∀ c ∈ (chunks s n).dropLast, c.length = n) ∧
    (s = "" → chunks s n = []) := by
  have hn' : n ≠ 0 := Nat.pos_iff_ne_zero.mp hn
  refine ⟨?_, ?_, ?_, ?_⟩
  · unfold chunks
    rw [string_join_map_mk, chunksList_flatten s.data n hn']
  · intro c hc
    unfold chunks at hc
    obtain ⟨cl, hcl, rfl⟩ := List.mem_map.mp hc
    obtain ⟨h1, h2⟩ := chunksList_mem s.data n hn' cl hcl
    refine ⟨?_, h2⟩
    intro e
    apply h1
    have hdata : (String.mk cl).data = ("" : String).data := by rw [e]
    simpa using hdata
  · intro c hc
    unfold chunks at hc
    rw [← List.map_dropLast] at hc
    obtain ⟨cl, hcl, rfl⟩ := List.mem_map.mp hc
    exact chunksList_dropLast_length s.data n hn' cl hcl
  · intro hs
    subst hs
    simp [chunks, chunksList_nil]

/-- Witness for C10 at the string abcdefg and chunk size 3 (chunks
abc, def, g). -/
theorem chunks_partition_properties_witness :
    0 < 3 ∧
    (String.join (chunks "abcdefg" 3) = "abcdefg" ∧
     (∀ c ∈ chunks "abcdefg" 3, c ≠ "" ∧ c.length ≤ 3) ∧
     (∀ c ∈ (chunks "abcdefg" 3).dropLast, c.length = 3) ∧
     ("abcdefg" = "" → chunks "abcdefg" 3 = [])) :=
  ⟨by norm_num, chunks_partition_properties "abcdefg" 3 (by norm_num)⟩

/-- The chunk structure of any 120-character string at chunk size 50:
exactly the slices [0,50), [50,100), [100,120). -/
theorem chunks_length_120 (t : String) (h : t.length = 120) :
    chunks t 50 = [String.mk (t.data.take 50),
                   String.mk ((t.data.drop 50).take 50),
                   String.mk ((t.data.drop 50).drop 50)] ∧
    (String.mk (t.data.take 50)).length = 50 ∧
    (String.mk ((t.data.drop 50).take 50)).length = 50 ∧
    (String.mk ((t.data.drop 50).drop 50)).length = 20 ∧
    String.mk (t.data.take 50) ++ (String.mk ((t.data.drop 50).take 50) ++
      String.mk ((t.data.drop 50).drop 50)) = t := by
  have hd : t.data.length = 120 := h
  have h1 : t.data ≠ [] := by
    intro e
    rw [e] at hd
    simp at hd
  have hd2 : (t.data.drop 50).length = 70 := by
    rw [List.length_drop, hd]
  have h2 : t.data.drop 50 ≠ [] := by
    intro e
    rw [e] at hd2
    simp at hd2
  have hd3 : ((t.data.drop 50).drop 50).length = 20 := by
    rw [List.length_drop, hd2]
  have h3 : (t.data.drop 50).drop 50 ≠ [] := by
    intro e
    rw [e] at hd3
    simp at hd3
  have e4 : ((t.data.drop 50).drop 50).take 50 = (t.data.drop 50).drop 50 :=
    List.take_of_length_le (by omega)
  have e5 : (((t.data.drop 50).drop 50).drop 50 : List Char) = [] :=
    List.drop_eq_nil_of_le (by omega)
  refine ⟨?_, ?_, ?_, ?_, ?_⟩
  · unfold chunks
    rw [chunksList_cons t.data 50 h1 (by norm_num),
        chunksList_cons (t.data.drop 50) 50 h2 (by norm_num),
        chunksList_cons ((t.data.drop 50).drop 50) 50 h3 (by norm_num),
        e4, e5, chunksList_nil]
    simp
  · show (t.data.take 50).length = 50
    rw [List.length_take]
    omega
  · show ((t.data.drop 50).take 50).length = 50
    rw [List.length_take]
    omega
  · exact hd3
  · show String.mk (t.data.take 50 ++ ((t.data.drop 50).take 50 ++
      (t.data.drop 50).drop 50)) = t
    rw [List.take_append_drop, List.take_append_drop]

/-! ## Properties of the dispatcher -/

theorem flatten_map_singleton {α β : Type} (l : List α) (f : α → β) :
    (l.map (fun x => [f x])).flatten = l.map f := by
  induction l with
  | nil => simp
  | cons a t ih => simp [ih]

/-- Evaluation of the type branch of the dispatcher: one `cliclick t:`
command per chunk (none with a screenshot), outputs and errors joined in
chunk order, one final screenshot. -/
theorem toolCall_type (env : Env) (t : String) :
    toolCall env "type" (some t) none =
      (.ok { output := some (String.join ((chunks t TYPING_GROUP_SIZE).map
               (fun c => (env.shellOut ("cliclick t:" ++ shlexQuote c)).1))),
             error := some (String.join ((chunks t TYPING_GROUP_SIZE).map
               (fun c => (env.shellOut ("cliclick t:" ++ shlexQuote c)).2))),
             base64_image := some env.screenshotB64 },
       ((chunks t TYPING_GROUP_SIZE).map
         (fun c => Event.shell ("cliclick t:" ++ shlexQuote c) false)) ++
         [Event.screenshot]) := by
  simp only [toolCall]
  simp [shell, screenshotAction, List.map_map, Function.comp_def, flatten_map_singleton]

/-- C5: a 120-character type action is split into exactly three chunks of
sizes 50, 50 and 20 (in order, concatenating back to the text), each chunk
dispatched as its own `cliclick t:` command with no per-chunk screenshot,
the chunk outputs concatenated in order, and exactly one screenshot taken
at the end. -/
theorem type_action_chunks_120 (env : Env) (t : String) (h : t.length = 120) :
    ∃ s1 s2 s3 : String,
      chunks t TYPING_GROUP_SIZE = [s1, s2, s3] ∧
      s1.length = 50 ∧ s2.length = 50 ∧ s3.length = 20 ∧
      s1 ++ (s2 ++ s3) = t ∧
      toolCall env "type" (some t) none =
        (.ok { output := some (String.join
                 [(env.shellOut ("cliclick t:" ++ shlexQuote s1)).1,
                  (env.shellOut ("cliclick t:" ++ shlexQuote s2)).1,
                  (env.shellOut ("cliclick t:" ++ shlexQuote s3)).1]),
               error := some (String.join
                 [(env.shellOut ("cliclick t:" ++ shlexQuote s1)).2,
                  (env.shellOut ("cliclick t:" ++ shlexQuote s2)).2,
                  (env.shellOut ("cliclick t:" ++ shlexQuote s3)).2]),
               base64_image := some env.screenshotB64 },
         [Event.shell ("cliclick t:" ++ shlexQuote s1) false,
          Event.shell ("cliclick t:" ++ shlexQuote s2) false,
          Event.shell ("cliclick t:" ++ shlexQuote s3) false,
          Event.screenshot]) ∧
      (toolCall env "type" (some t) none).2.count Event.screenshot = 1 := by
  obtain ⟨hch, hl1, hl2, hl3, hcat⟩ := chunks_length_120 t h
  have hch' : chunks t TYPING_GROUP_SIZE = [String.mk (t.data.take 50),
      String.mk ((t.data.drop 50).take 50), String.mk ((t.data.drop 50).drop 50)] := hch
  refine ⟨_, _, _, hch', hl1, hl2, hl3, hcat, ?_, ?_⟩
  · rw [toolCall_type env t, hch']
    rfl
  · rw [toolCall_type env t, hch']
    simp [List.count_append, List.count_cons, List.count_nil, beq_iff_eq]

/-- Witness for C5 on a concrete 120-character string. -/
theorem type_action_chunks_120_witness :
    (String.mk (List.replicate 120 'a')).length = 120 ∧
    (toolCall envW "type" (some (String.mk (List.replicate 120 'a'))) none).2.count
      Event.screenshot = 1 := by
  refine ⟨rfl, ?_⟩
  obtain ⟨s1, s2, s3, h1, h2, h3, h4, h5, h6, h7⟩ :=
    type_action_chunks_120 envW (String.mk (List.replicate 120 'a')) rfl
  exact h7

/-- C6 (code bug): the dispatcher never imports the `re` module, so a
cursor_position action runs `cliclick p` and then raises
`NameError: name re is not defined` instead of parsing the output and
returning an `X=..,Y=..` result. -/
theorem cursor_position_raises_nameerror_re (env : Env) :
    toolCall env "cursor_position" none none =
      (.error (.nameError "re"), [Event.shell "cliclick p" false]) := rfl

/-- C7: a key action forwards `cliclick kp:` applied to the sanitized key
name, and `sanitize_key` maps (case-insensitively) the name return to
enter and leaves every other name unchanged. -/
theorem key_action_sanitize_forwarding (env : Env) (t : String) :
    toolCall env "key" (some t) none =
      (.ok { output := some (env.shellOut ("cliclick kp:" ++ sanitize_key t)).1,
             error := some (env.shellOut ("cliclick kp:" ++ sanitize_key t)).2,
             base64_image := some env.screenshotB64 },
       [Event.shell ("cliclick kp:" ++ sanitize_key t) true, Event.screenshot]) ∧
    sanitize_key t = (if str_lower t = "return" then "enter" else t) ∧
    sanitize_key "return" = "enter" ∧ sanitize_key "Return" = "enter" ∧
    sanitize_key "RETURN" = "enter" ∧ sanitize_key "space" = "space" :=
  ⟨rfl, rfl, rfl, rfl, rfl, rfl⟩

/-- C8 (code bug): the action middle_click lies outside the declared action
enumeration, yet the dispatcher does not fail with the uniform invalid
action `ToolError`: it passes parameter validation and then raises a bare
`KeyError` from the click_arg dict lookup.  Any other non-enumerated action
does fail with the uniform invalid action `ToolError`. -/
theorem middle_click_raises_keyerror (env : Env) :
    toolCall env "middle_click" none none =
      (.error (.keyError "middle_click"), []) ∧
    toolCall env "paste" none none =
      (.error (.toolError "Invalid action: paste"), []) :=
  ⟨rfl, rfl⟩

/-- C9: a pointer-move or drag request whose coordinate list contains a
negative component fails with a validation `ToolError` and issues no
external command at all. -/
theorem negative_coordinate_validation_error_no_command (env : Env)
    (action : String) (text : Option String) (coord : List ℤ)
    (ha : action = "mouse_move" ∨ action = "left_click_drag")
    (hneg : ∃ c ∈ coord, c < 0) :
    ∃ msg, toolCall env action text (some coord) =
      (.error (.toolError msg), []) := by
  rcases ha with rfl | rfl <;>
  · cases text with
    | some tx => exact ⟨_, rfl⟩
    | none =>
        match coord, hneg with
        | [], ⟨c, hc, hcneg⟩ => exact absurd hc (List.not_mem_nil c)
        | [a], ⟨c, hc, hcneg⟩ => exact ⟨_, rfl⟩
        | a :: b :: d :: rest, ⟨c, hc, hcneg⟩ => exact ⟨_, rfl⟩
        | [a, b], ⟨c, hc, hcneg⟩ =>
            have hcond : ¬ (0 ≤ a ∧ 0 ≤ b) := by
              intro ⟨h1, h2⟩
              rcases List.mem_cons.mp hc with rfl | hc'
              · linarith
              · rcases List.mem_cons.mp hc' with rfl | hc''
                · linarith
                · exact List.not_mem_nil c hc''
            simp only [toolCall]
            simp only [hcond, not_false_iff, if_true, ite_true, eq_self_iff_true]
            exact ⟨_, rfl⟩

/-- Witness for C9: a mouse_move with coordinate [-1, 5]. -/
theorem negative_coordinate_validation_error_no_command_witness :
    ("mouse_move" = "mouse_move" ∨ "mouse_move" = "left_click_drag") ∧
    (∃ c ∈ [(-1 : ℤ), 5], c < 0) ∧
    (∃ msg, toolCall envW "mouse_move" none (some [-1, 5]) =
      (.error (.toolError msg), [])) :=
  ⟨Or.inl rfl, ⟨-1, List.mem_cons_self _ _, by norm_num⟩,
   negative_coordinate_validation_error_no_command envW "mouse_move" none [-1, 5]
     (Or.inl rfl) ⟨-1, List.mem_cons_self _ _, by norm_num⟩⟩
